import Mathlib

set_option maxRecDepth 8192

/-!
Shallow embedding of the Callbridge-Sewa Excel import pipeline
(src/pages/admin/ProspectsDetailsPage.jsx) and of the prospects/users
services (src/services/prospectsService.js, usersService).

Raw strings model JavaScript strings; a JS value that may be
`undefined`/`null` is modelled as `Option String`.
-/

/-- A spreadsheet cell: `none` models a `null`/`undefined` cell. -/
abbrev Cell := Option String

/-- The ordered list of prospect schema fields (SCHEMA_FIELDS in the source). -/
def SCHEMA_FIELDS : List String :=
  ["fullName", "address", "mobile", "bloodgroup", "aadhar", "dateOfBirth", "age",
   "guardian", "batchNumber", "gender", "badgeStatus", "emergencyContact",
   "DeptFinalisedName", "maritalStatus", "locality", "assignedTo", "NamdaanDOI",
   "namdaanInitiated", "NamdaanInitiationBy", "NamdaanInitiationPlace"]

/-- REQUIRED_IMPORT_FIELDS in the source. -/
def REQUIRED_IMPORT_FIELDS : List String := ["fullName", "mobile"]

/-- normalizeHeader: lowercase, then remove every character that is not
a-z or 0-9; `none` models a JS `undefined` argument (`String(str ?? '')`). -/
def normalizeHeader (str : Option String) : String :=
  String.mk (((str.getD "").data.map Char.toLower).filter fun c =>
    (('a' ≤ c) && (c ≤ 'z')) || (('0' ≤ c) && (c ≤ '9')))

/-- EXCEL_HEADER_TO_SCHEMA: ordered alias-token → schema-field catalog
(JS object literal; key insertion order is preserved, keys are unique). -/
def EXCEL_HEADER_TO_SCHEMA : List (String × String) :=
  [("name", "fullName"), ("nam", "fullName"), ("fullname", "fullName"),
   ("prospect", "fullName"),
   ("address", "address"), ("location", "address"), ("addr", "address"),
   ("phone", "mobile"), ("mobile", "mobile"), ("phoneno", "mobile"),
   ("contact", "mobile"),
   ("bloodgroup", "bloodgroup"), ("bloodgrou", "bloodgroup"),
   ("blood", "bloodgroup"), ("bg", "bloodgroup"),
   ("aadhaarcard", "aadhar"), ("aadhaarc", "aadhar"), ("aadhar", "aadhar"),
   ("dateofbirth", "dateOfBirth"), ("dateofbir", "dateOfBirth"),
   ("dob", "dateOfBirth"),
   ("age", "age"),
   ("guardianname", "guardian"), ("guardian", "guardian"),
   ("fathersname", "guardian"),
   ("batchnumber", "batchNumber"), ("batchnum", "batchNumber"),
   ("batch", "batchNumber"),
   ("gender", "gender"),
   ("badgestatus", "badgeStatus"), ("badgestat", "badgeStatus"),
   ("emergencycontact", "emergencyContact"), ("emergency", "emergencyContact"),
   ("emerg", "emergencyContact"),
   ("deptfinalisedname", "DeptFinalisedName"), ("deptfinali", "DeptFinalisedName"),
   ("department", "DeptFinalisedName"),
   ("maritalstatus", "maritalStatus"), ("marita", "maritalStatus"),
   ("marital", "maritalStatus"),
   ("rovillagetownlocalitydistrict", "locality"), ("locality", "locality"),
   ("village", "locality"),
   ("namdaandoi", "NamdaanDOI"),
   ("namdaaninitiated", "namdaanInitiated"),
   ("namdaaninitiationby", "NamdaanInitiationBy"),
   ("namdaaninitiationplace", "NamdaanInitiationPlace")]

/-- KEYWORD_TO_SCHEMA: ordered keyword → schema-field rules (tier 4). -/
def KEYWORD_TO_SCHEMA : List (String × String) :=
  [("dateofinitialisation", "NamdaanDOI"), ("dateofinitiation", "NamdaanDOI"),
   ("namadan", "NamdaanDOI"), ("namdaan", "NamdaanDOI"), ("doi", "NamdaanDOI"),
   ("initiationby", "NamdaanInitiationBy"),
   ("initiationplace", "NamdaanInitiationPlace"),
   ("initiated", "namdaanInitiated")]

/-- JS `s.includes(sub)`: sub occurs contiguously in s. -/
def strIncludes (s sub : String) : Bool :=
  (List.range (s.data.length + 1)).any fun i => sub.data.isPrefixOf (s.data.drop i)

/-- Tier 2 of the matcher: when the normalized header has length at least 2,
scan the alias keys in catalog order and take the first key such that the
header is a prefix of the key or the key is a prefix of the header. -/
def matchTier2 (normalized : String) : Option String :=
  if 2 ≤ normalized.data.length then
    (EXCEL_HEADER_TO_SCHEMA.find? fun kv =>
      normalized.data.isPrefixOf kv.1.data || kv.1.data.isPrefixOf normalized.data).map
      Prod.snd
  else none

/-- Tier 3: the normalized header equals some normalized schema field name. -/
def matchTier3 (normalized : String) : Option String :=
  SCHEMA_FIELDS.find? fun f => normalizeHeader (some f) == normalized

/-- Tier 4: the normalized header contains a keyword of KEYWORD_TO_SCHEMA. -/
def matchTier4 (normalized : String) : Option String :=
  (KEYWORD_TO_SCHEMA.find? fun kv => strIncludes normalized kv.1).map Prod.snd

/-- Tier 5: the normalized header contains some normalized schema field name. -/
def matchTier5 (normalized : String) : Option String :=
  SCHEMA_FIELDS.find? fun f =>
    !(normalizeHeader (some f) == "") && strIncludes normalized (normalizeHeader (some f))

/-- matchExcelHeaderToSchemaField: the five-tier precedence ladder. -/
def matchExcelHeaderToSchemaField (excelHeader : Option String) : Option String :=
  let normalized := normalizeHeader excelHeader
  if normalized = "" then none
  else
    ((((EXCEL_HEADER_TO_SCHEMA.lookup normalized).orElse
        fun _ => matchTier2 normalized).orElse
        fun _ => matchTier3 normalized).orElse
        fun _ => matchTier4 normalized).orElse
        fun _ => matchTier5 normalized

/-- buildAutoMapping: apply the matcher to every header positionally. -/
def buildAutoMapping (excelHeaders : List String) : List (Option String) :=
  excelHeaders.map fun h => matchExcelHeaderToSchemaField (some h)

example : matchExcelHeaderToSchemaField (some "Name") = some "fullName" := by decide
example : matchExcelHeaderToSchemaField (some "Blood Grou") = some "bloodgroup" := by decide
example : matchExcelHeaderToSchemaField (some "assignedTo") = some "assignedTo" := by decide
example : matchExcelHeaderToSchemaField (some "Favorite Color") = none := by decide

/-! ## Candidate records and the row materializer -/

/-- A candidate record: a JS object read as a field-name → value map
(`none` models an absent key). -/
abbrev Record := String → Option String

/-- The empty JS object `{}`. -/
def emptyRecord : Record := fun _ => none

/-- JS property assignment `obj[k] = v`. -/
def setField (r : Record) (k v : String) : Record :=
  fun k' => if k' = k then some v else r k'

/-- JS `String(s).trim()` on a list-of-chars string model (ASCII whitespace). -/
def jsTrim (s : String) : String :=
  String.mk (((s.data.dropWhile Char.isWhitespace).reverse.dropWhile
    Char.isWhitespace).reverse)

/-- Cell coercion in buildProspectsFromMapping:
`raw == null || raw === '' ? '' : String(raw).trim()`. -/
def cellValue (raw : Cell) : String :=
  match raw with
  | none => ""
  | some s => if s = "" then "" else jsTrim s

/-- The `columnMapping.forEach((schemaField, colIndex) => ...)` loop of
buildProspectsFromMapping: skip null/empty/"__skip__" entries, otherwise
write the trimmed cell at that column index onto the record. -/
def applyMapping (row : List Cell) : List (Option String) → Nat → Record → Record
  | [], _, acc => acc
  | sf :: rest, colIndex, acc =>
    applyMapping row rest (colIndex + 1)
      (match sf with
       | none => acc
       | some f =>
         if f = "" ∨ f = "__skip__" then acc
         else setField acc f (cellValue (row.getD colIndex none)))

/-- buildProspectsFromMapping: one candidate record per raw row. -/
def buildProspectsFromMapping (rows : List (List Cell))
    (columnMapping : List (Option String)) : List Record :=
  rows.map fun row => applyMapping row columnMapping 0 emptyRecord

/-- JS `Array.prototype.join(sep)` on a list of strings. -/
def joinSep (sep : String) : List String → String
  | [] => ""
  | [x] => x
  | x :: xs => x ++ sep ++ joinSep sep xs

/-- One fingerprint row:
`[(p.fullName ?? p.name), p.address, p.mobile, p.batchNumber, p.assignedTo, p.bloodgroup].join('|')`
(JS join renders undefined as the empty string). -/
def signatureRow (p : Record) : String :=
  joinSep "|"
    [((p "fullName").orElse fun _ => p "name").getD "", (p "address").getD "",
     (p "mobile").getD "", (p "batchNumber").getD "", (p "assignedTo").getD "",
     (p "bloodgroup").getD ""]

/-- Ascending lexicographic string order, the order used by the default JS
`Array.prototype.sort()` comparison on these ASCII fingerprint rows. -/
def jsSortLe (a b : String) : Prop := a.data ≤ b.data

instance : DecidableRel jsSortLe :=
  fun a b => inferInstanceAs (Decidable (a.data ≤ b.data))

instance : IsTotal String jsSortLe := ⟨fun a b => le_total a.data b.data⟩

instance : IsTrans String jsSortLe := ⟨fun _ _ _ h1 h2 => le_trans h1 h2⟩

instance : IsAntisymm String jsSortLe where
  antisymm a b h1 h2 := by
    have hd : a.data = b.data := le_antisymm h1 h2
    cases a
    cases b
    exact congrArg String.mk hd

/-- getImportSignature: per-record rows, sorted ascending, then joined with
newlines. `List.insertionSort` models JS `Array.prototype.sort()`: on a
total antisymmetric order any comparison sort yields the same list. -/
def getImportSignature (prospects : List Record) : String :=
  joinSep "\n" (List.insertionSort jsSortLe (prospects.map signatureRow))

/-! ## The prospects service (src/services/prospectsService.js) -/

/-- The document written to the prospects collection. -/
structure DbProspect where
  fullName : String
  address : String
  mobile : String
  bloodgroup : String
  aadhar : String
  dateOfBirth : String
  age : String
  guardian : String
  batchNumber : String
  gender : String
  badgeStatus : String
  emergencyContact : String
  DeptFinalisedName : String
  maritalStatus : String
  locality : String
  assignedTo : String
  NamdaanDOI : String
  namdaanInitiated : String
  NamdaanInitiationBy : String
  NamdaanInitiationPlace : String
deriving DecidableEq

/-- JS string truthiness of a possibly-absent value. -/
def jsTruthy (o : Option String) : Bool := !((o.getD "") == "")

/-- JS `String(x).trim() || d`. -/
def trimOr (s d : String) : String := if jsTrim s = "" then d else jsTrim s

/-- The address expression of toDbProspect:
`p.address || (p.locality && p.fullAddress ? locality + ", " + fullAddress : (p.fullAddress || p.locality || ''))`. -/
def rawAddress (p : Record) : String :=
  if jsTruthy (p "address") then (p "address").getD ""
  else if jsTruthy (p "locality") && jsTruthy (p "fullAddress") then
    ((p "locality").getD "") ++ ", " ++ ((p "fullAddress").getD "")
  else if jsTruthy (p "fullAddress") then (p "fullAddress").getD ""
  else if jsTruthy (p "locality") then (p "locality").getD ""
  else ""

/-- `p.namdaanInitiated ?? (p.initiated ? 'yes' : 'no')` (the trailing
`?? 'no'` in the source is unreachable, the ternary is never nullish). -/
def rawNamdaanInitiated (p : Record) : String :=
  match p "namdaanInitiated" with
  | some s => s
  | none => if jsTruthy (p "initiated") then "yes" else "no"

/-- toDbProspect: fallback keys and defaults for the stored document. -/
def toDbProspect (p : Record) : DbProspect where
  fullName := trimOr (((p "fullName").orElse fun _ => p "name").getD "") ""
  address := trimOr (rawAddress p) ""
  mobile := trimOr ((((p "mobile").orElse fun _ => p "phoneNumber").orElse
    fun _ => p "mobileNumber").getD "") ""
  bloodgroup := trimOr (((p "bloodgroup").orElse fun _ => p "bloodGroup").getD "-") "-"
  aadhar := trimOr (((p "aadhar").orElse fun _ => p "aadharNumber").getD "") ""
  dateOfBirth := trimOr ((p "dateOfBirth").getD "") ""
  age := trimOr ((p "age").getD "") ""
  guardian := trimOr (((p "guardian").orElse fun _ => p "fathersName").getD "") ""
  batchNumber := trimOr (((p "batchNumber").orElse fun _ => p "badgeId").getD "") ""
  gender := trimOr ((p "gender").getD "Male") "Male"
  badgeStatus := trimOr ((p "badgeStatus").getD "N/A") "N/A"
  emergencyContact := trimOr ((p "emergencyContact").getD "") ""
  DeptFinalisedName := trimOr (((p "DeptFinalisedName").orElse
    fun _ => p "departmentName").getD "") ""
  maritalStatus := trimOr ((p "maritalStatus").getD "N/A") "N/A"
  locality := trimOr ((p "locality").getD "") ""
  assignedTo := trimOr ((p "assignedTo").getD "") ""
  NamdaanDOI := trimOr (((p "NamdaanDOI").orElse fun _ => p "dateOfInitiation").getD "") ""
  namdaanInitiated := trimOr (rawNamdaanInitiated p) "no"
  NamdaanInitiationBy := trimOr (((p "NamdaanInitiationBy").orElse
    fun _ => p "initiationBy").getD "") ""
  NamdaanInitiationPlace := trimOr (((p "NamdaanInitiationPlace").orElse
    fun _ => p "initiationPlace").getD "") ""

/-- The build-time Appwrite configuration (APPWRITE_CONFIG): an identifier
not supplied at build time is the empty string. -/
structure AppwriteConfig where
  databaseId : String
  prospectsCollectionId : String
  usersCollectionId : String
deriving DecidableEq

/-- Service failures: a configuration error (thrown before any network
call) is distinct by constructor from a runtime/network error. -/
inductive SvcError where
  | configError (msg : String)
  | networkError (msg : String)
deriving DecidableEq

/-- The hosted Record Store for prospects, with an explicit call counter
and the set of call indices at which createDocument fails. -/
structure Store where
  docs : List DbProspect
  failing : List Nat
  calls : Nat
deriving DecidableEq

def prospectsNotConfiguredMsg : String := "Appwrite prospects collection is not configured."

def createFailMsg : String := "createDocument failed"

/-- createProspect: throw a configuration error when the database or the
prospects collection id is missing; otherwise issue one createDocument
call, which appends the converted document or fails. -/
def createProspect (cfg : AppwriteConfig) (prospect : Record) (st : Store) :
    Except SvcError DbProspect × Store :=
  if cfg.databaseId = "" ∨ cfg.prospectsCollectionId = "" then
    (.error (.configError prospectsNotConfiguredMsg), st)
  else
    let data := toDbProspect prospect
    if st.calls ∈ st.failing then
      (.error (.networkError createFailMsg), { st with calls := st.calls + 1 })
    else
      (.ok data, { st with docs := st.docs ++ [data], calls := st.calls + 1 })

/-- createProspectsBulk: one createProspect call per record, sequentially,
aborting at the first failure (the `await` in a for-of loop). -/
def createProspectsBulk (cfg : AppwriteConfig) :
    List Record → Store → Except SvcError (List DbProspect) × Store
  | [], st => (.ok [], st)
  | p :: ps, st =>
    match createProspect cfg p st with
    | (.error e, st') => (.error e, st')
    | (.ok d, st') =>
      match createProspectsBulk cfg ps st' with
      | (.error e, st'') => (.error e, st'')
      | (.ok ds, st'') => (.ok (d :: ds), st'')

/-- listProspects: when unconfigured (or when the underlying call throws)
it resolves with `{ documents: [], total: 0 }` rather than failing. -/
def listProspects (cfg : AppwriteConfig) (st : Store) :
    Except SvcError (List DbProspect × Nat) :=
  if cfg.databaseId = "" ∨ cfg.prospectsCollectionId = "" then .ok ([], 0)
  else .ok (st.docs, st.docs.length)

/-- listUsers (src/services/usersService.js): same shape as listProspects,
over the users collection. -/
def listUsers (cfg : AppwriteConfig) (users : List String) :
    Except SvcError (List String × Nat) :=
  if cfg.databaseId = "" ∨ cfg.usersCollectionId = "" then .ok ([], 0)
  else .ok (users, users.length)

/-! ## The import handler (handleImportExcel) -/

inductive ImportResult where
  | noData (msg : String)
  | missingRequired (missing : List String) (msg : String)
  | duplicate (msg : String)
  | insertError (e : SvcError)
  | success (created : List DbProspect)
deriving DecidableEq

def noDataMsg : String := "Excel file has no headers or data rows."

def duplicateMsg : String := "This Excel file has already been imported. No duplicate data added."

/-- The required-columns error message built in handleImportExcel. -/
def mkMissingMsg (missing : List String) : String :=
  "Required columns not found: " ++ joinSep ", " missing ++
    ". Please add columns named \"Name\" (prospect name) and \"Phone\" (or \"Mobile\") in your Excel."

/-- `new Set(columnMapping.filter(Boolean))`: the mapped schema fields. -/
def mappedFieldsOf (headers : List String) : List String :=
  ((buildAutoMapping headers).filterMap id).filter fun f => ¬ f = ""

/-- `REQUIRED_IMPORT_FIELDS.filter((r) => !mappedFields.has(r))`. -/
def missingRequiredOf (headers : List String) : List String :=
  REQUIRED_IMPORT_FIELDS.filter fun r => ¬ r ∈ mappedFieldsOf headers

/-- The materialized candidate records:
`buildProspectsFromMapping(rows, columnMapping).map((p) => ({ ...p, assignedTo: '' }))`. -/
def importProspects (headers : List String) (rows : List (List Cell)) : List Record :=
  (buildProspectsFromMapping rows (buildAutoMapping headers)).map
    fun p => setField p "assignedTo" ""

/-- handleImportExcel after a successful parse: gate on headers/rows, then
required fields, then the duplicate fingerprint, then bulk-insert; the
fingerprint is appended only after a fully successful bulk insert.
Returns the outcome, the new session fingerprint set, and the store. -/
def handleImportExcel (cfg : AppwriteConfig) (headers : List String)
    (rows : List (List Cell)) (importedSignatures : List String) (st : Store) :
    ImportResult × List String × Store :=
  if headers = [] ∨ rows = [] then (.noData noDataMsg, importedSignatures, st)
  else if missingRequiredOf headers ≠ [] then
    (.missingRequired (missingRequiredOf headers) (mkMissingMsg (missingRequiredOf headers)),
     importedSignatures, st)
  else if getImportSignature (importProspects headers rows) ∈ importedSignatures then
    (.duplicate duplicateMsg, importedSignatures, st)
  else
    match createProspectsBulk cfg (importProspects headers rows) st with
    | (.error e, st') => (.insertError e, importedSignatures, st')
    | (.ok ds, st') =>
      (.success ds, importedSignatures ++ [getImportSignature (importProspects headers rows)], st')

def cfgOk : AppwriteConfig := ⟨"db", "prospects", "users"⟩

def emptyStore : Store := ⟨[], [], 0⟩

example :
    (handleImportExcel cfgOk ["Name", "Phone"] [[some "A", some "1"]] [] emptyStore).1 =
      .success [toDbProspect (setField (setField (setField emptyRecord "fullName" "A")
        "mobile" "1") "assignedTo" "")] := by decide

/-! ## Claim theorems -/

/-- C8: for every input (including an undefined one), normalizeHeader
produces only lowercase ASCII letters and digits, and the empty string and
undefined both normalize to the empty string. -/
theorem normalizeHeader_contract (s : Option String) :
    ((normalizeHeader s).data.all fun c =>
      (('a' ≤ c) && (c ≤ 'z')) || (('0' ≤ c) && (c ≤ '9'))) = true
    ∧ normalizeHeader (some "") = "" ∧ normalizeHeader none = "" := by
  refine ⟨?_, rfl, rfl⟩
  apply List.all_eq_true.2
  intro c hc
  exact (List.mem_filter.mp hc).2

/-- C4: every alias token of the catalog is matched by the exact tier to
precisely the schema field the catalog binds to it. -/
theorem exact_tier_sound :
    (EXCEL_HEADER_TO_SCHEMA.all fun kv =>
      matchExcelHeaderToSchemaField (some kv.1) == some kv.2) = true := by decide

theorem lookup_empty_key_none : EXCEL_HEADER_TO_SCHEMA.lookup "" = none := by decide

/-- C1: a header whose normalized form is an exact alias for field A is
matched to A by tier 1, even when that normalized form also occurs as a
substring of another schema field B's normalized canonical name. -/
theorem tier1_beats_tier5 (h : Option String) (A B : String)
    (hA : EXCEL_HEADER_TO_SCHEMA.lookup (normalizeHeader h) = some A)
    (hB : B ∈ SCHEMA_FIELDS)
    (hsub : strIncludes (normalizeHeader (some B)) (normalizeHeader h) = true) :
    matchExcelHeaderToSchemaField h = some A ∧
      (A ≠ B → matchExcelHeaderToSchemaField h ≠ some B) := by
  have hne : normalizeHeader h ≠ "" := by
    intro hemp
    rw [hemp, lookup_empty_key_none] at hA
    exact Option.noConfusion hA
  have h1 : matchExcelHeaderToSchemaField h = some A := by
    unfold matchExcelHeaderToSchemaField
    simp only [hne, if_false, hA, reduceIte]
    rfl
  refine ⟨h1, fun hAB heq => hAB ?_⟩
  rw [h1] at heq
  exact Option.some.inj heq

/-- C1 witness: the header "Name" maps to fullName although "name" is a
substring of the normalized canonical name of DeptFinalisedName. -/
theorem tier1_beats_tier5_witness :
    matchExcelHeaderToSchemaField (some "Name") = some "fullName" ∧
      ("fullName" ≠ "DeptFinalisedName" →
        matchExcelHeaderToSchemaField (some "Name") ≠ some "DeptFinalisedName") :=
  tier1_beats_tier5 (some "Name") "fullName" "DeptFinalisedName"
    (by decide) (by decide) (by decide)

theorem applyMapping_no_write (row : List Cell) (f : String) :
    ∀ (m : List (Option String)) (ci : Nat) (acc : Record),
      some f ∉ m → applyMapping row m ci acc f = acc f := by
  intro m
  induction m with
  | nil => intro ci acc _; rfl
  | cons x rest ih =>
    intro ci acc hmem
    have hrest : some f ∉ rest := fun hm => hmem (List.mem_cons_of_mem _ hm)
    cases x with
    | none => exact ih (ci + 1) acc hrest
    | some g =>
      by_cases hskip : g = "" ∨ g = "__skip__"
      · simp only [applyMapping, hskip, if_true]
        exact ih (ci + 1) acc hrest
      · have hg : g ≠ f := fun hgf => hmem (by rw [hgf]; exact List.mem_cons_self _ _)
        simp only [applyMapping, hskip, if_false]
        rw [ih (ci + 1) _ hrest]
        simp [setField, Ne.symm hg]

theorem applyMapping_last_write (row : List Cell) (f : String)
    (hf1 : f ≠ "") (hf2 : f ≠ "__skip__") :
    ∀ (m : List (Option String)) (j ci : Nat) (acc : Record),
      m[j]? = some (some f) →
      (∀ k, j < k → m[k]? ≠ some (some f)) →
      applyMapping row m ci acc f = some (cellValue (row.getD (ci + j) none)) := by
  intro m
  induction m with
  | nil => intro j ci acc hj _; simp at hj
  | cons x rest ih =>
    intro j ci acc hj hk
    cases j with
    | zero =>
      rw [List.getElem?_cons_zero] at hj
      have hx : x = some f := Option.some.inj hj
      subst hx
      have hrest : some f ∉ rest := by
        intro hmem
        obtain ⟨n, hn⟩ := List.mem_iff_getElem?.mp hmem
        exact hk (n + 1) (Nat.succ_pos n) (by rwa [List.getElem?_cons_succ])
      simp only [applyMapping]
      rw [if_neg (by tauto)]
      rw [applyMapping_no_write row f rest _ _ hrest]
      simp [setField]
    | succ j' =>
      rw [List.getElem?_cons_succ] at hj
      have hk' : ∀ k, j' < k → rest[k]? ≠ some (some f) := by
        intro k hk2
        have := hk (k + 1) (Nat.succ_lt_succ hk2)
        rwa [List.getElem?_cons_succ] at this
      simp only [applyMapping]
      rw [ih j' (ci + 1) _ hj hk']
      have harith : ci + 1 + j' = ci + (j' + 1) := by omega
      rw [harith]

/-- C5: when two column indices i < j both map to the same schema field f
(and j is the last column mapped to f), the materialized record holds the
trimmed value of column j — the later column wins. -/
theorem row_last_write_wins (row : List Cell) (mapping : List (Option String))
    (i j : Nat) (f : String)
    (hij : i < j) (hi : mapping[i]? = some (some f)) (hj : mapping[j]? = some (some f))
    (hlast : ∀ k, j < k → mapping[k]? ≠ some (some f))
    (hf1 : f ≠ "") (hf2 : f ≠ "__skip__") :
    applyMapping row mapping 0 emptyRecord f = some (cellValue (row.getD j none)) := by
  have h := applyMapping_last_write row f hf1 hf2 mapping j 0 emptyRecord hj hlast
  simpa using h

/-- C5 witness: headers ["Name", "Full Name"] both map to fullName; with
row values ["Alice", "Alicia"] the record holds "Alicia". -/
theorem row_last_write_wins_witness :
    applyMapping [some "Alice", some "Alicia"] (buildAutoMapping ["Name", "Full Name"]) 0
      emptyRecord "fullName" = some "Alicia" := by
  have h := row_last_write_wins [some "Alice", some "Alicia"]
    (buildAutoMapping ["Name", "Full Name"]) 0 1 "fullName" (by decide)
    (by decide) (by decide)
    (by
      intro k hk
      have hlen : (buildAutoMapping ["Name", "Full Name"]).length ≤ k := by
        have h2 : (buildAutoMapping ["Name", "Full Name"]).length = 2 := by decide
        omega
      rw [List.getElem?_eq_none hlen]
      exact fun hc => Option.noConfusion hc)
    (by decide) (by decide)
  rw [h]
  decide

theorem getImportSignature_perm_eq (ps ps' : List Record) (h : ps.Perm ps') :
    getImportSignature ps = getImportSignature ps' := by
  unfold getImportSignature
  congr 1
  exact List.eq_of_perm_of_sorted
    ((List.perm_insertionSort _ _).trans ((h.map signatureRow).trans
      (List.perm_insertionSort _ _).symm))
    (List.sorted_insertionSort _ _) (List.sorted_insertionSort _ _)

theorem handleImportExcel_success_inv (cfg : AppwriteConfig) (headers : List String)
    (rows : List (List Cell)) (sigs : List String) (st : Store)
    (ds : List DbProspect) (sigs2 : List String) (st2 : Store)
    (h : handleImportExcel cfg headers rows sigs st = (.success ds, sigs2, st2)) :
    ¬ headers = [] ∧ ¬ rows = [] ∧ missingRequiredOf headers = [] ∧
    getImportSignature (importProspects headers rows) ∉ sigs ∧
    sigs2 = sigs ++ [getImportSignature (importProspects headers rows)] := by
  unfold handleImportExcel at h
  split at h
  next h1 => simp at h
  next h1 =>
    split at h
    next h2 => simp at h
    next h2 =>
      split at h
      next h3 => simp at h
      next h3 =>
        split at h
        next e st' hbulk => simp at h
        next ds' st' hbulk =>
          simp only [Prod.mk.injEq, ImportResult.success.injEq] at h
          exact ⟨(not_or.mp h1).1, (not_or.mp h1).2, not_not.mp h2, h3, h.2.1.symm⟩

/-- C3: getImportSignature is invariant under permutation of the batch, and
after a successful import, re-importing any row-reordering of the same file
is rejected as a duplicate with the store left untouched. -/
theorem import_fingerprint_order_insensitive (ps ps' : List Record) (hperm : ps.Perm ps') :
    getImportSignature ps = getImportSignature ps' ∧
    ∀ cfg headers rows rows' sigs st ds sigs2 st2,
      rows.Perm rows' →
      handleImportExcel cfg headers rows sigs st = (.success ds, sigs2, st2) →
      handleImportExcel cfg headers rows' sigs2 st2 = (.duplicate duplicateMsg, sigs2, st2) := by
  refine ⟨getImportSignature_perm_eq ps ps' hperm, ?_⟩
  intro cfg headers rows rows' sigs st ds sigs2 st2 hrp hfirst
  obtain ⟨hh, hr, hmiss, _hdup, hsigs2⟩ :=
    handleImportExcel_success_inv cfg headers rows sigs st ds sigs2 st2 hfirst
  have hr' : ¬ rows' = [] := by
    intro h0
    subst h0
    have hlen := hrp.length_eq
    simp at hlen
    exact hr hlen
  have hpp : (importProspects headers rows').Perm (importProspects headers rows) := by
    unfold importProspects buildProspectsFromMapping
    exact ((hrp.symm.map _).map _)
  have hsig_eq : getImportSignature (importProspects headers rows') =
      getImportSignature (importProspects headers rows) :=
    getImportSignature_perm_eq _ _ hpp
  unfold handleImportExcel
  rw [if_neg (by simp [hh, hr'])]
  rw [if_neg (by simp [hmiss])]
  rw [if_pos (by rw [hsig_eq, hsigs2]; exact List.mem_append_right _ (List.mem_singleton.mpr rfl))]

def rowA : List Cell := [some "A", some "1"]

def rowB : List Cell := [some "B", some "2"]

def dbA : DbProspect :=
  ⟨"A", "", "1", "-", "", "", "", "", "", "Male", "N/A", "", "", "N/A", "", "", "", "no", "", ""⟩

def dbB : DbProspect :=
  ⟨"B", "", "2", "-", "", "", "", "", "", "Male", "N/A", "", "", "N/A", "", "", "", "no", "", ""⟩

def sigAB : String := "A||1|||\nB||2|||"

def pA : Record := setField emptyRecord "fullName" "A"

def pB : Record := setField emptyRecord "fullName" "B"

/-- C3 witness: a concrete batch and its swap share the fingerprint, and a
concrete successful import followed by the reordered re-import is rejected
as a duplicate with no further store calls. -/
theorem import_fingerprint_order_insensitive_witness :
    getImportSignature [pA, pB] = getImportSignature [pB, pA] ∧
    handleImportExcel cfgOk ["Name", "Phone"] [rowB, rowA] [sigAB] ⟨[dbA, dbB], [], 2⟩ =
      (.duplicate duplicateMsg, [sigAB], ⟨[dbA, dbB], [], 2⟩) := by
  have h := import_fingerprint_order_insensitive [pA, pB] [pB, pA] (List.Perm.swap pB pA [])
  exact ⟨h.1, h.2 cfgOk ["Name", "Phone"] [rowA, rowB] [rowB, rowA] [] emptyStore
    [dbA, dbB] [sigAB] ⟨[dbA, dbB], [], 2⟩ (List.Perm.swap rowB rowA []) (by decide)⟩

/-- C2 (amended): when the parsed file has at least one header and one data
row and the mapping misses a required field, the import stops with the
missing-required error, the fingerprint set and store are untouched, the
reported list is exactly the uncovered required fields, and the message
names each of them. -/
theorem required_field_gating (cfg : AppwriteConfig) (headers : List String)
    (rows : List (List Cell)) (sigs : List String) (st : Store)
    (hh : headers ≠ []) (hr : rows ≠ [])
    (hmiss : ∃ r ∈ REQUIRED_IMPORT_FIELDS, r ∉ mappedFieldsOf headers) :
    handleImportExcel cfg headers rows sigs st =
      (.missingRequired (missingRequiredOf headers)
        (mkMissingMsg (missingRequiredOf headers)), sigs, st)
    ∧ (∀ f, f ∈ missingRequiredOf headers ↔
        f ∈ REQUIRED_IMPORT_FIELDS ∧ f ∉ mappedFieldsOf headers)
    ∧ ∀ f ∈ missingRequiredOf headers,
        strIncludes (mkMissingMsg (missingRequiredOf headers)) f = true := by
  have hne : missingRequiredOf headers ≠ [] := by
    obtain ⟨r, hr1, hr2⟩ := hmiss
    intro h0
    have hmem : r ∈ missingRequiredOf headers :=
      List.mem_filter.mpr ⟨hr1, decide_eq_true hr2⟩
    rw [h0] at hmem
    exact absurd hmem (List.not_mem_nil r)
  refine ⟨?_, ?_, ?_⟩
  · unfold handleImportExcel
    rw [if_neg (by simp [hh, hr]), if_pos hne]
  · intro f
    unfold missingRequiredOf
    simp [List.mem_filter]
  · intro f hf
    have hsub : missingRequiredOf headers = ["fullName"] ∨
        missingRequiredOf headers = ["mobile"] ∨
        missingRequiredOf headers = ["fullName", "mobile"] ∨
        missingRequiredOf headers = [] := by
      unfold missingRequiredOf REQUIRED_IMPORT_FIELDS
      by_cases h1 : "fullName" ∈ mappedFieldsOf headers <;>
        by_cases h2 : "mobile" ∈ mappedFieldsOf headers <;>
        simp [List.filter, h1, h2]
    rcases hsub with h | h | h | h <;> rw [h] at hf
    · have : f = "fullName" := by simpa using hf
      subst this
      rw [h]
      decide
    · have : f = "mobile" := by simpa using hf
      subst this
      rw [h]
      decide
    · have : f = "fullName" ∨ f = "mobile" := by simpa using hf
      rw [h]
      rcases this with rfl | rfl <;> decide
    · simp at hf

/-- C2 witness: headers ["Name"] cover fullName but not mobile; with a data
row present the import is rejected naming exactly "mobile". -/
theorem required_field_gating_witness :
    handleImportExcel cfgOk ["Name"] [[some "Alice"]] [] emptyStore =
      (.missingRequired ["mobile"] (mkMissingMsg ["mobile"]), [], emptyStore) := by
  have h := required_field_gating cfgOk ["Name"] [[some "Alice"]] [] emptyStore
    (by decide) (by decide) ⟨"mobile", by decide, by decide⟩
  exact h.1

/-- C2 counterexample to the unrestricted claim: with headers ["Name"] and
an empty row list the mapping still misses the required field mobile, yet
the import is rejected through the no-data branch, whose message does not
name "mobile" at all. -/
theorem required_field_gating_ctex :
    ("mobile" ∉ mappedFieldsOf ["Name"]) ∧
    handleImportExcel cfgOk ["Name"] [] [] emptyStore = (.noData noDataMsg, [], emptyStore) ∧
    strIncludes noDataMsg "mobile" = false :=
  ⟨by decide, by decide, by decide⟩

theorem handleImportExcel_insertError_inv (cfg : AppwriteConfig) (headers : List String)
    (rows : List (List Cell)) (sigs : List String) (st : Store) (e : SvcError)
    (sigs' : List String) (st' : Store)
    (h : handleImportExcel cfg headers rows sigs st = (.insertError e, sigs', st')) :
    sigs' = sigs := by
  unfold handleImportExcel at h
  split at h
  next => simp at h
  next =>
    split at h
    next => simp at h
    next =>
      split at h
      next => simp at h
      next =>
        split at h
        next e2 st2 hbulk =>
          simp only [Prod.mk.injEq, ImportResult.insertError.injEq] at h
          exact h.2.1.symm
        next => simp at h

/-- C6: with a configured collection, createProspectsBulk issues one create
call per record in order; if the call for record k (0-based) fails, exactly
the first k records are inserted, exactly k+1 calls were made (none after
the failure), the bulk call reports the failure, and a failed import leaves
the session fingerprint set unchanged. -/
theorem bulk_insert_partial_failure (cfg : AppwriteConfig) (ps : List Record)
    (st : Store) (k : Nat)
    (hdb : cfg.databaseId ≠ "") (hcol : cfg.prospectsCollectionId ≠ "")
    (hk : k < ps.length)
    (hok : ∀ m, m < k → st.calls + m ∉ st.failing)
    (hfail : st.calls + k ∈ st.failing) :
    createProspectsBulk cfg ps st =
      (.error (.networkError createFailMsg),
       ⟨st.docs ++ ((ps.take k).map toDbProspect), st.failing, st.calls + k + 1⟩)
    ∧ ∀ headers rows sigs st2 e sigs' st',
        handleImportExcel cfg headers rows sigs st2 = (.insertError e, sigs', st') →
        sigs' = sigs := by
  refine ⟨?_, fun headers rows sigs st2 e sigs' st' h =>
    handleImportExcel_insertError_inv cfg headers rows sigs st2 e sigs' st' h⟩
  induction ps generalizing k st with
  | nil => simp at hk
  | cons p rest ih =>
    cases k with
    | zero =>
      have hf : st.calls ∈ st.failing := by simpa using hfail
      have hcp : createProspect cfg p st =
          (.error (.networkError createFailMsg), { st with calls := st.calls + 1 }) := by
        unfold createProspect
        rw [if_neg (by simp [hdb, hcol]), if_pos hf]
      simp only [createProspectsBulk, hcp]
      simp
    | succ k' =>
      have h0 : st.calls ∉ st.failing := by
        have := hok 0 (Nat.succ_pos k')
        simpa using this
      have hcp : createProspect cfg p st =
          (.ok (toDbProspect p),
           { st with docs := st.docs ++ [toDbProspect p], calls := st.calls + 1 }) := by
        unfold createProspect
        rw [if_neg (by simp [hdb, hcol]), if_neg h0]
      have hk' : k' < rest.length := by simpa using Nat.lt_of_succ_lt_succ hk
      have hok' : ∀ m, m < k' → st.calls + 1 + m ∉ st.failing := by
        intro m hm
        have harith : st.calls + 1 + m = st.calls + (m + 1) := by omega
        rw [harith]
        exact hok (m + 1) (by omega)
      have hfail' : st.calls + 1 + k' ∈ st.failing := by
        have harith : st.calls + 1 + k' = st.calls + (k' + 1) := by omega
        rw [harith]
        exact hfail
      have hrec := ih (⟨st.docs ++ [toDbProspect p], st.failing, st.calls + 1⟩ : Store)
        k' hk' hok' hfail'
      simp only [createProspectsBulk, hcp, hrec]
      simp only [Prod.mk.injEq, Store.mk.injEq, List.take_succ_cons, List.map_cons,
        List.append_assoc, List.singleton_append, true_and]
      omega

def dbAOnly : DbProspect :=
  ⟨"A", "", "", "-", "", "", "", "", "", "Male", "N/A", "", "", "N/A", "", "", "", "no", "", ""⟩

/-- C6 witness: with the second create call failing, only the first record
is inserted, two calls were made, and a concrete failed import leaves the
fingerprint list unchanged. -/
theorem bulk_insert_partial_failure_witness :
    createProspectsBulk cfgOk [pA, pB] ⟨[], [1], 0⟩ =
      (.error (.networkError createFailMsg), ⟨[dbAOnly], [1], 2⟩) ∧
    (["other"] : List String) = ["other"] := by
  have h := bulk_insert_partial_failure cfgOk [pA, pB] (⟨[], [1], 0⟩ : Store) 1
    (by decide) (by decide) (by decide)
    (by
      intro m hm
      have hm0 : m = 0 := by omega
      subst hm0
      decide)
    (by decide)
  refine ⟨?_, ?_⟩
  · rw [h.1]
    exact rfl
  · exact h.2 ["Name", "Phone"] [[some "A", some "1"]] ["other"] ⟨[], [0], 0⟩
      (.networkError createFailMsg) ["other"] ⟨[], [0], 1⟩ (by decide)

/-- C7 (amended): with a missing database or collection id, createProspect
fails immediately with a configuration error (by constructor distinct from
a network error) without touching the store, while the list operations
(listProspects, listUsers) do not fail: they resolve with an empty result. -/
theorem collection_not_configured (cfg : AppwriteConfig) (p : Record) (st : Store)
    (users : List String)
    (hp : cfg.databaseId = "" ∨ cfg.prospectsCollectionId = "") :
    createProspect cfg p st = (.error (.configError prospectsNotConfiguredMsg), st) ∧
    listProspects cfg st = .ok ([], 0) ∧
    ((cfg.databaseId = "" ∨ cfg.usersCollectionId = "") →
      listUsers cfg users = .ok ([], 0)) := by
  refine ⟨?_, ?_, fun hu => ?_⟩
  · unfold createProspect
    rw [if_pos hp]
  · unfold listProspects
    rw [if_pos hp]
  · unfold listUsers
    rw [if_pos hu]

/-- C7 witness: the fully unconfigured build. -/
theorem collection_not_configured_witness :
    createProspect ⟨"", "", ""⟩ emptyRecord emptyStore =
      (.error (.configError prospectsNotConfiguredMsg), emptyStore) ∧
    listProspects ⟨"", "", ""⟩ emptyStore = .ok ([], 0) ∧
    ((("" : String) = "" ∨ ("" : String) = "") →
      listUsers ⟨"", "", ""⟩ ["alice"] = .ok ([], 0)) :=
  collection_not_configured ⟨"", "", ""⟩ emptyRecord emptyStore ["alice"] (Or.inl rfl)

/-- C7 counterexample to the claim as stated: the unconfigured list
operations succeed with an empty result instead of failing — even when the
backing data is non-empty. -/
theorem collection_not_configured_ctex :
    listProspects ⟨"", "", ""⟩ ⟨[dbAOnly], [], 5⟩ = .ok ([], 0) ∧
    listUsers ⟨"", "", ""⟩ ["alice"] = .ok ([], 0) := ⟨rfl, rfl⟩

theorem createProspectsBulk_docs (cfg : AppwriteConfig) :
    ∀ (ps : List Record) (st : Store), ∃ m,
      ((createProspectsBulk cfg ps st).2).docs =
        st.docs ++ ((ps.take m).map toDbProspect) := by
  intro ps
  induction ps with
  | nil =>
    intro st
    exact ⟨0, by simp [createProspectsBulk]⟩
  | cons p rest ih =>
    intro st
    by_cases hcfg : cfg.databaseId = "" ∨ cfg.prospectsCollectionId = ""
    · refine ⟨0, ?_⟩
      simp [createProspectsBulk, createProspect, hcfg]
    · by_cases hf : st.calls ∈ st.failing
      · refine ⟨0, ?_⟩
        simp [createProspectsBulk, createProspect, hcfg, hf]
      · obtain ⟨m, hm⟩ := ih (⟨st.docs ++ [toDbProspect p], st.failing, st.calls + 1⟩ : Store)
        refine ⟨m + 1, ?_⟩
        have hcp : createProspect cfg p st =
            (.ok (toDbProspect p),
             (⟨st.docs ++ [toDbProspect p], st.failing, st.calls + 1⟩ : Store)) := by
          unfold createProspect
          rw [if_neg hcfg, if_neg hf]
        have hstep : ((createProspectsBulk cfg (p :: rest) st).2) =
            ((createProspectsBulk cfg rest
              (⟨st.docs ++ [toDbProspect p], st.failing, st.calls + 1⟩ : Store)).2) := by
          simp only [createProspectsBulk, hcp]
          rcases hb : createProspectsBulk cfg rest
            (⟨st.docs ++ [toDbProspect p], st.failing, st.calls + 1⟩ : Store) with ⟨r, st2⟩
          cases r <;> simp
        rw [hstep, hm]
        simp [List.take_succ_cons, List.append_assoc]

theorem importProspects_assignedTo_blank (headers : List String)
    (rows : List (List Cell)) :
    ∀ p ∈ importProspects headers rows, (toDbProspect p).assignedTo = "" := by
  intro p hp
  obtain ⟨q, hq, rfl⟩ := List.mem_map.mp hp
  rfl

/-- C9: every document the import flow hands to the Record Store has an
empty assignedTo, although the matcher itself maps the header "assignedTo"
to the assignedTo schema field — the handler overwrites it before insert. -/
theorem import_overwrites_assignedTo (cfg : AppwriteConfig) (headers : List String)
    (rows : List (List Cell)) (sigs : List String) (st : Store) :
    (((handleImportExcel cfg headers rows sigs st).2.2.docs.drop st.docs.length).all
      fun d => d.assignedTo == "") = true
    ∧ matchExcelHeaderToSchemaField (some "assignedTo") = some "assignedTo" := by
  refine ⟨?_, by decide⟩
  unfold handleImportExcel
  split
  next => simp [List.drop_length]
  next =>
    split
    next => simp [List.drop_length]
    next =>
      split
      next => simp [List.drop_length]
      next =>
        obtain ⟨m, hm⟩ := createProspectsBulk_docs cfg (importProspects headers rows) st
        split
        next e st' hbulk =>
          rw [hbulk] at hm
          show ((st'.docs.drop st.docs.length).all fun d => d.assignedTo == "") = true
          rw [hm, List.drop_left]
          apply List.all_eq_true.2
          intro d hd
          obtain ⟨p, hp, rfl⟩ := List.mem_map.mp hd
          have hmem : p ∈ importProspects headers rows := List.take_subset _ _ hp
          simp [importProspects_assignedTo_blank headers rows p hmem]
        next ds st' hbulk =>
          rw [hbulk] at hm
          show ((st'.docs.drop st.docs.length).all fun d => d.assignedTo == "") = true
          rw [hm, List.drop_left]
          apply List.all_eq_true.2
          intro d hd
          obtain ⟨p, hp, rfl⟩ := List.mem_map.mp hd
          have hmem : p ∈ importProspects headers rows := List.take_subset _ _ hp
          simp [importProspects_assignedTo_blank headers rows p hmem]

/-- A field value that is absent or blank after trimming. -/
def absentOrBlank (o : Option String) : Prop := jsTrim (o.getD "") = ""

/-- A field value that is absent or the empty string (not merely blank). -/
def absentOrEmpty (o : Option String) : Prop := o.getD "" = ""

theorem trimOr_of_blank (s d : String) (h : jsTrim s = "") : trimOr s d = d := by
  simp [trimOr, h]

theorem trimOr_getD_default (a : Option String) (d : String)
    (ha : absentOrBlank a) (hd : trimOr d d = d) : trimOr (a.getD d) d = d := by
  cases a with
  | none => simpa using hd
  | some s => exact trimOr_of_blank s d (by simpa [absentOrBlank] using ha)

theorem orElse_blank_getD (a b : Option String)
    (ha : absentOrBlank a) (hb : absentOrBlank b) :
    jsTrim (((a.orElse fun _ => b)).getD "") = "" := by
  cases a with
  | none => simpa [absentOrBlank, Option.orElse] using hb
  | some s => simpa [absentOrBlank, Option.orElse] using ha

theorem trimOr_orElse_default (a b : Option String) (d : String)
    (ha : absentOrBlank a) (hb : absentOrBlank b) (hd : trimOr d d = d) :
    trimOr ((a.orElse fun _ => b).getD d) d = d := by
  cases a with
  | none =>
    cases b with
    | none => simpa [Option.orElse] using hd
    | some t =>
      simp only [Option.orElse, Option.getD]
      exact trimOr_of_blank t d (by simpa [absentOrBlank] using hb)
  | some s =>
    simp only [Option.orElse, Option.getD]
    exact trimOr_of_blank s d (by simpa [absentOrBlank] using ha)

def emptyDbProspect : DbProspect :=
  ⟨"", "", "", "-", "", "", "", "", "", "Male", "N/A", "", "", "N/A", "", "", "", "no", "", ""⟩

/-- C10 (amended): a field receives its fixed default only when the field
and its fallback source keys are absent or blank (for namdaanInitiated:
initiated not truthy; for address: locality and fullAddress empty, since
address falls back to them); under those conditions the stored document is
exactly the all-defaults document. -/
theorem toDbProspect_defaults (p : Record)
    (hgender : absentOrBlank (p "gender"))
    (hbg1 : absentOrBlank (p "bloodgroup")) (hbg2 : absentOrBlank (p "bloodGroup"))
    (hbadge : absentOrBlank (p "badgeStatus"))
    (hmar : absentOrBlank (p "maritalStatus"))
    (hnam : absentOrBlank (p "namdaanInitiated"))
    (hinit : jsTruthy (p "initiated") = false)
    (hfn1 : absentOrBlank (p "fullName")) (hfn2 : absentOrBlank (p "name"))
    (hmob1 : absentOrBlank (p "mobile")) (hmob2 : absentOrBlank (p "phoneNumber"))
    (hmob3 : absentOrBlank (p "mobileNumber"))
    (haddr : absentOrBlank (p "address"))
    (hloce : absentOrEmpty (p "locality")) (hfae : absentOrEmpty (p "fullAddress"))
    (haad1 : absentOrBlank (p "aadhar")) (haad2 : absentOrBlank (p "aadharNumber"))
    (hdob : absentOrBlank (p "dateOfBirth"))
    (hage : absentOrBlank (p "age"))
    (hgu1 : absentOrBlank (p "guardian")) (hgu2 : absentOrBlank (p "fathersName"))
    (hbat1 : absentOrBlank (p "batchNumber")) (hbat2 : absentOrBlank (p "badgeId"))
    (hemc : absentOrBlank (p "emergencyContact"))
    (hdep1 : absentOrBlank (p "DeptFinalisedName"))
    (hdep2 : absentOrBlank (p "departmentName"))
    (hloc : absentOrBlank (p "locality"))
    (hass : absentOrBlank (p "assignedTo"))
    (hdoi1 : absentOrBlank (p "NamdaanDOI")) (hdoi2 : absentOrBlank (p "dateOfInitiation"))
    (hby1 : absentOrBlank (p "NamdaanInitiationBy")) (hby2 : absentOrBlank (p "initiationBy"))
    (hpl1 : absentOrBlank (p "NamdaanInitiationPlace"))
    (hpl2 : absentOrBlank (p "initiationPlace")) :
    toDbProspect p = emptyDbProspect := by
  have haddress : trimOr (rawAddress p) "" = "" := by
    have hloce' : (p "locality").getD "" = "" := hloce
    have hfae' : (p "fullAddress").getD "" = "" := hfae
    have hlocf : jsTruthy (p "locality") = false := by simp [jsTruthy, hloce']
    have hfaf : jsTruthy (p "fullAddress") = false := by simp [jsTruthy, hfae']
    by_cases hadr : jsTruthy (p "address") = true
    · unfold rawAddress
      rw [if_pos hadr]
      exact trimOr_of_blank _ "" haddr
    · unfold rawAddress
      rw [if_neg hadr, if_neg (by simp [hfaf]), if_neg (by simp [hfaf]),
        if_neg (by simp [hlocf])]
      rfl
  have hnamdaan : trimOr (rawNamdaanInitiated p) "no" = "no" := by
    unfold rawNamdaanInitiated
    cases hn : p "namdaanInitiated" with
    | some s =>
      exact trimOr_of_blank s "no" (by rw [hn] at hnam; simpa [absentOrBlank] using hnam)
    | none =>
      rw [hinit]
      decide
  unfold toDbProspect emptyDbProspect
  simp only [DbProspect.mk.injEq]
  exact ⟨trimOr_of_blank _ "" (orElse_blank_getD _ _ hfn1 hfn2),
    haddress,
    trimOr_of_blank _ ""
      (orElse_blank_getD _ _ (orElse_blank_getD _ _ hmob1 hmob2) hmob3),
    trimOr_orElse_default _ _ "-" hbg1 hbg2 (by decide),
    trimOr_of_blank _ "" (orElse_blank_getD _ _ haad1 haad2),
    trimOr_of_blank _ "" hdob,
    trimOr_of_blank _ "" hage,
    trimOr_of_blank _ "" (orElse_blank_getD _ _ hgu1 hgu2),
    trimOr_of_blank _ "" (orElse_blank_getD _ _ hbat1 hbat2),
    trimOr_getD_default _ "Male" hgender (by decide),
    trimOr_getD_default _ "N/A" hbadge (by decide),
    trimOr_of_blank _ "" hemc,
    trimOr_of_blank _ "" (orElse_blank_getD _ _ hdep1 hdep2),
    trimOr_getD_default _ "N/A" hmar (by decide),
    trimOr_of_blank _ "" hloc,
    trimOr_of_blank _ "" hass,
    trimOr_of_blank _ "" (orElse_blank_getD _ _ hdoi1 hdoi2),
    hnamdaan,
    trimOr_of_blank _ "" (orElse_blank_getD _ _ hby1 hby2),
    trimOr_of_blank _ "" (orElse_blank_getD _ _ hpl1 hpl2)⟩

/-- C10 witness: the empty candidate record is stored as the all-defaults
document. -/
theorem toDbProspect_defaults_witness : toDbProspect emptyRecord = emptyDbProspect :=
  toDbProspect_defaults emptyRecord rfl rfl rfl rfl rfl rfl rfl rfl rfl rfl rfl rfl
    rfl rfl rfl rfl rfl rfl rfl rfl rfl rfl rfl rfl rfl rfl rfl rfl rfl rfl rfl rfl
    rfl rfl

def recLocalityOnly : Record := fun k => if k = "locality" then some "XYZ" else none

/-- C10 counterexample to the claim as stated: a candidate record with an
absent address but a non-empty locality is stored with address "XYZ", not
the empty string — address falls back to locality. -/
theorem toDbProspect_defaults_ctex :
    recLocalityOnly "address" = none ∧ (toDbProspect recLocalityOnly).address = "XYZ" :=
  ⟨rfl, rfl⟩
